import Mathlib

/-!
Shallow embedding of the OmniXAI SHAP tabular explainer
(`omnixai/explainers/tabular/agnostic/shap.py`) and of the components of the
local attribution pipeline it delegates to.  Feature values and prediction
scores are modelled over `ℚ`; fallible Python code (assertions, `TypeError`)
is modelled with `Except`.  Components of the pipeline whose code is not part
of the analysed sources (the `shap` library's `KernelExplainer` and `sample`,
`FeatureImportance.add`) are modelled from the specification and marked as
such in their doc comments.
-/

namespace OmniShap

/-- Errors of the pipeline.  `configError` models a construction-time failure
(the `assert` in `ShapTabular.__init__` and the background-size check),
`typeError` models Python's `TypeError` (membership test on `None`), and
`validationError` models the call-time `assert` in `ShapTabular.explain`. -/
inductive Err where
  | configError
  | typeError
  | validationError
deriving DecidableEq

/-- Observable events of one `explain` call, used to talk about the order of
the attributor invocation relative to the label validation. -/
inductive Event where
  | attributorCall
  | predictCall
deriving DecidableEq

/-- The `y` argument of `ShapTabular.explain`: absent, a single int label, or
a sequence of labels. -/
inductive YArg where
  | noLabel
  | single (k : Nat)
  | seq (l : List Nat)

/-- Tabular training data as the explainer sees it: the (non-target) feature
columns in order, an optional target column name, and the feature rows. -/
structure Tabular where
  featureColumns : List String
  targetColumn : Option String
  rows : List (List ℚ)

/-- One explanation record of a `FeatureImportance` result: an optional
target label and the ordered (feature name, feature value, importance score)
triples. -/
structure FIRecord where
  targetLabel : Option Nat
  triples : List (String × ℚ × ℚ)
deriving DecidableEq

/-- Modelled from the spec: a deterministic pseudo-random generator state
step (the seeded randomness behind background subsampling and coalition
sampling). -/
def lcgNext (s : Nat) : Nat :=
  (s * 1103515245 + 12345) % 2 ^ 31

/-- Modelled from the spec: draw `n` elements of `pool` uniformly at random
without replacement (each draw removes the chosen element from the pool). -/
def sampleIdxAux : Nat → List Nat → Nat → List Nat
  | 0, _, _ => []
  | _ + 1, [], _ => []
  | n + 1, p :: ps, st =>
      let a := (p :: ps).getD (st % (p :: ps).length) 0
      a :: sampleIdxAux n ((p :: ps).erase a) (lcgNext st)

/-- Modelled from the spec: the row indices selected when subsampling a
background set of `len` rows down to `n` rows. -/
def sampleIndices (len n seed : Nat) : List Nat :=
  sampleIdxAux n (List.range len) seed

/-- Modelled from the spec: `shap.sample` as used by `ShapTabular.__init__` —
build the background set.  Fails with `ConfigError` on a non-positive target
size; subsamples without replacement when the target size is smaller than the
dataset; otherwise returns the full dataset unchanged. -/
def sampleBackground (rows : List (List ℚ)) (n : Int) (seed : Nat) :
    Except Err (List (List ℚ)) :=
  if n ≤ 0 then .error .configError
  else if n < (rows.length : Int) then
    .ok ((sampleIndices rows.length n.toNat seed).map (fun i => rows.getD i []))
  else .ok rows

/-- Modelled from the spec: shuffle a list with the seeded generator (used to
pick the random remainder of a partially enumerated coalition size). -/
def shuffleAux {α : Type} : Nat → List α → Nat → List α
  | 0, _, _ => []
  | _ + 1, [], _ => []
  | n + 1, p :: ps, st =>
      let k := st % (p :: ps).length
      (p :: ps).getD k p :: shuffleAux n ((p :: ps).eraseIdx k) (lcgNext st)

/-- Modelled from the spec: a seeded permutation of a list. -/
def shuffle {α : Type} (l : List α) (st : Nat) : List α :=
  shuffleAux l.length l st

/-- Modelled from the spec: mean prediction of the background set for one
output index (the attribution baseline `φ0`). -/
def avgPredict (bg : List (List ℚ)) (predict : List ℚ → List ℚ)
    (target : Nat) : ℚ :=
  (bg.map (fun b => (predict b).getD target 0)).sum / (bg.length : ℚ)

/-- Modelled from the spec: the synthetic row for coalition `S` — feature `i`
takes the instance's value when `i ∈ S`, else the background row's value. -/
def synthRow (x b : List ℚ) (numF : Nat) (S : List Nat) : List ℚ :=
  (List.range numF).map (fun i => if i ∈ S then x.getD i 0 else b.getD i 0)

/-- Modelled from the spec: `v(S)` — the prediction on the coalition's
synthetic rows, averaged (paired) over all background rows. -/
def coalitionValue (x : List ℚ) (bg : List (List ℚ))
    (predict : List ℚ → List ℚ) (target numF : Nat) (S : List Nat) : ℚ :=
  (bg.map (fun b => (predict (synthRow x b numF S)).getD target 0)).sum /
    (bg.length : ℚ)

/-- Modelled from the spec: the Kernel-SHAP coalition weight
`w(S) = (F−1) / (C(F,|S|) · |S| · (F−|S|))`. -/
def kernelWeight (numF s : Nat) : ℚ :=
  ((numF : ℚ) - 1) / ((Nat.choose numF s : ℚ) * (s : ℚ) * ((numF : ℚ) - (s : ℚ)))

/-- Modelled from the spec: the coalition sizes `1..F−1` ordered favoring
extreme sizes (near-empty or near-full first). -/
def sizeOrder (numF : Nat) : List Nat :=
  List.insertionSort (fun s t => min s (numF - s) ≤ min t (numF - t))
    (List.range' 1 (numF - 1))

/-- Modelled from the spec: take whole coalition-size groups while the sample
budget allows, then a seeded random selection from the first group that does
not fit entirely. -/
def pickCoalitions : List (List (List Nat)) → Nat → Nat → List (List Nat)
  | [], _, _ => []
  | g :: gs, budget, st =>
      if g.length ≤ budget then g ++ pickCoalitions gs (budget - g.length) st
      else (shuffle g st).take budget

/-- Modelled from the spec: the regression feature vector of a coalition
after eliminating the last attribution through the efficiency constraint
(`z_i = [i ∈ S] − [F−1 ∈ S]`, for `i < F−1`). -/
def zRow (numF : Nat) (S : List Nat) : List ℚ :=
  (List.range (numF - 1)).map
    (fun i => (if i ∈ S then (1 : ℚ) else 0) - (if numF - 1 ∈ S then (1 : ℚ) else 0))

/-- Modelled from the spec: the normal-equation matrix `Σ_S w(S)·z_S·z_Sᵀ`
of the weighted least-squares regression. -/
def normalMatrix (numF : Nat) (cs : List (List Nat)) (w : List Nat → ℚ) :
    List (List ℚ) :=
  (List.range (numF - 1)).map fun i =>
    (List.range (numF - 1)).map fun j =>
      (cs.map fun S => w S * (zRow numF S).getD i 0 * (zRow numF S).getD j 0).sum

/-- Modelled from the spec: the normal-equation right-hand side
`Σ_S w(S)·y_S·z_S`. -/
def normalVector (numF : Nat) (cs : List (List Nat)) (w : List Nat → ℚ)
    (yv : List Nat → ℚ) : List ℚ :=
  (List.range (numF - 1)).map fun i =>
    (cs.map fun S => w S * yv S * (zRow numF S).getD i 0).sum

/-- Drop column `j` from every row of a matrix. -/
def dropCol (j : Nat) (m : List (List ℚ)) : List (List ℚ) :=
  m.map (fun r => r.eraseIdx j)

/-- Determinant by Laplace expansion along the first row, with explicit fuel
so that the definition is structural and evaluates by kernel reduction. -/
def detFuel : Nat → List (List ℚ) → ℚ
  | 0, _ => 0
  | _ + 1, [] => 1
  | fuel + 1, r :: rs =>
      ((List.range r.length).map fun j =>
        (-1 : ℚ) ^ j * r.getD j 0 * detFuel fuel (dropCol j rs)).sum

/-- Determinant of a rational matrix. -/
def det (m : List (List ℚ)) : ℚ :=
  detFuel (m.length + 1) m

/-- Solve the square linear system `A·x = b` by Cramer's rule (exact over ℚ);
a singular system falls back to the zero vector. -/
def cramerSolve (A : List (List ℚ)) (b : List ℚ) : List ℚ :=
  let d := det A
  if d = 0 then List.replicate A.length 0
  else (List.range A.length).map fun j =>
    det (List.zipWith (fun r c => r.set j c) A b) / d

/-- Modelled from the spec: the coalition-sampling attributor
(`shap.KernelExplainer.shap_values` for one instance and one output index,
whose code is external to the analysed sources).  Coalitions of sizes
`1..F−1` are drawn favoring extreme sizes within the sample budget; `v(S)` is
computed by averaging the prediction over background pairings; the weighted
least-squares regression is solved with the last attribution eliminated
through the efficiency constraint, so the returned scores sum exactly to
`predict(instance) − mean(predict(background))` for the target. -/
def attributeScores (x : List ℚ) (bg : List (List ℚ))
    (predict : List ℚ → List ℚ) (target ncs seed : Nat) : List ℚ :=
  if x.length = 0 then []
  else
    let numF := x.length
    let phi0 := avgPredict bg predict target
    let fx := (predict x).getD target 0
    let delta := fx - phi0
    let groups := (sizeOrder numF).map fun s => List.sublistsLen s (List.range numF)
    let cs := pickCoalitions groups ncs seed
    let w := fun S : List Nat => kernelWeight numF S.length
    let yv := fun S : List Nat =>
      coalitionValue x bg predict target numF S - phi0 -
        delta * (if numF - 1 ∈ S then 1 else 0)
    let free := cramerSolve (normalMatrix numF cs w) (normalVector numF cs w yv)
    free ++ [delta - free.sum]

/-- `np.argmax` on one row of prediction scores: the index of the maximal
value, the lowest such index when several entries share the maximum
(numpy returns the first occurrence). -/
def argmaxIdx : List ℚ → Nat
  | [] => 0
  | [_] => 0
  | a :: b :: rest =>
      let j := argmaxIdx (b :: rest)
      if a < (b :: rest).getD j 0 then j + 1 else 0

/-- Ordering of record triples: descending absolute importance score. -/
def absDesc (a b : String × ℚ × ℚ) : Prop := |b.2.2| ≤ |a.2.2|

instance : DecidableRel absDesc :=
  fun a b => inferInstanceAs (Decidable (|b.2.2| ≤ |a.2.2|))

instance : IsTotal (String × ℚ × ℚ) absDesc :=
  ⟨fun _ _ => le_total _ _⟩

instance : IsTrans (String × ℚ × ℚ) absDesc :=
  ⟨fun _ _ _ h1 h2 => le_trans h2 h1⟩

/-- The (feature name, feature value, importance score) triples in original
feature order. -/
def zip3 (names : List String) (values scores : List ℚ) :
    List (String × ℚ × ℚ) :=
  names.zip (values.zip scores)

/-- Modelled from the spec: `FeatureImportance.add` (whose code is external
to the analysed sources) with `sort=True` — append one record whose triples
are stably sorted by descending absolute score. -/
def addRecord (targetLabel : Option Nat) (names : List String)
    (values scores : List ℚ) : FIRecord :=
  { targetLabel := targetLabel
    triples := List.insertionSort absDesc (zip3 names values scores) }

/-- The constructed `ShapTabular` explainer state (`ShapTabular.__init__`):
task mode, feature schema, ignored features, the prepared background data,
the prediction function on transformed rows, the feature transformer, and
the link chosen for the kernel explainer. -/
structure ShapTabular where
  mode : String
  featureColumns : List String
  targetColumn : Option String
  ignoredFeatures : List String
  data : List (List ℚ)
  predictFn : List ℚ → List ℚ
  transform : List ℚ → List ℚ
  link : String

/-- The background preparation and explainer construction after the
ignored-feature check (`ShapTabular.__init__` lines 55–61): subsample the
background when `nsamples` is given, then build the kernel explainer
state. -/
def ShapTabular.initBackground (trainingData : Tabular)
    (predictFn transform : List ℚ → List ℚ) (mode : String)
    (ignored : List String) (nsamples : Option Int) (seed : Nat) :
    Except Err ShapTabular :=
  let bg := match nsamples with
    | some n => sampleBackground trainingData.rows n seed
    | none => .ok trainingData.rows
  bg.map fun data =>
    { mode := mode
      featureColumns := trainingData.featureColumns
      targetColumn := trainingData.targetColumn
      ignoredFeatures := ignored
      data := data
      predictFn := predictFn
      transform := transform
      link := if mode = "classification" then "logit" else "identity" }

/-- `ShapTabular.__init__` (lines 49–61): defaults `ignored_features` to the
empty set, then — when a target column exists — tests the target column's
membership in the *raw* `ignored_features` argument (`assert
self.target_column not in ignored_features`): membership in `None` is a
`TypeError`, a failed assertion is the construction-time config failure;
afterwards the background set is prepared. -/
def ShapTabular.init (trainingData : Tabular)
    (predictFn transform : List ℚ → List ℚ) (mode : String)
    (ignoredFeatures : Option (List String)) (nsamples : Option Int)
    (seed : Nat) : Except Err ShapTabular :=
  let ignored := ignoredFeatures.getD []
  match trainingData.targetColumn with
  | some t =>
      match ignoredFeatures with
      | none => .error .typeError
      | some ign =>
          if t ∈ ign then .error .configError
          else ShapTabular.initBackground trainingData predictFn transform
            mode ignored nsamples seed
  | none =>
      ShapTabular.initBackground trainingData predictFn transform mode
        ignored nsamples seed

/-- `valid_indices` (`explain` lines 95–98): the feature indices whose
column name is not ignored. -/
def ShapTabular.validIndices (e : ShapTabular) : List Nat :=
  if e.ignoredFeatures = [] then List.range e.featureColumns.length
  else (List.range e.featureColumns.length).filter
    (fun i => decide (e.featureColumns.getD i "" ∉ e.ignoredFeatures))

/-- The number of model outputs, as the kernel explainer derives it from the
background predictions. -/
def ShapTabular.numOutputs (e : ShapTabular) : Nat :=
  (e.predictFn (e.data.headD [])).length

/-- `self.explainer.shap_values(instances)` (`explain` line 78): per output
index, per instance, the attribution scores. -/
def ShapTabular.shapValues (e : ShapTabular) (instances : List (List ℚ))
    (ncs seed : Nat) : List (List (List ℚ)) :=
  (List.range e.numOutputs).map fun c =>
    instances.map fun x => attributeScores x e.data e.predictFn c ncs seed

/-- The attribution row used for instance `i`: `shap_values[label][i]` in
classification (`label = y[i]`), `shap_values[i]` (the single output) in
regression. -/
def ShapTabular.scoreRow (e : ShapTabular) (shapAll : List (List (List ℚ)))
    (labels : Option (List Nat)) (i : Nat) : List ℚ :=
  match labels with
  | some ls => (shapAll.getD (ls.getD i 0) []).getD i []
  | none => (shapAll.getD 0 []).getD i []

/-- One loop iteration of `explain` (lines 100–123): feature values and
names restricted to the valid indices, the resolved label (classification)
or no label (regression), the matching attribution row restricted to the
valid indices, assembled into a sorted record. -/
def ShapTabular.mkRecord (e : ShapTabular) (X : List (List ℚ))
    (shapAll : List (List (List ℚ))) (labels : Option (List Nat)) (i : Nat) :
    FIRecord :=
  let raw := X.getD i []
  let vi := e.validIndices
  let values := vi.map (fun j => raw.getD j 0)
  let names := vi.map (fun j => e.featureColumns.getD j "")
  let scores := e.scoreRow shapAll labels i
  addRecord (labels.map (fun ls => ls.getD i 0)) names values
    (vi.map (fun j => scores.getD j 0))

/-- The record-assembly loop of `explain` (lines 100–123). -/
def ShapTabular.buildRecords (e : ShapTabular) (X : List (List ℚ))
    (shapAll : List (List (List ℚ))) (labels : Option (List Nat)) (n : Nat) :
    List FIRecord :=
  (List.range n).map (e.mkRecord X shapAll labels)

/-- `ShapTabular.explain` (lines 63–124), with the emitted event trace made
explicit.  The attributor (`shap_values`, line 78) runs first; label
resolution and validation (lines 80–93) follow; the records are then
assembled per instance.  The trace records, in order, the attributor
invocation and — when classification labels are absent — the extra
prediction call used for `argmax` label selection. -/
def ShapTabular.explainT (e : ShapTabular) (X : List (List ℚ)) (y : YArg)
    (ncs seed : Nat) : List Event × Except Err (List FIRecord) :=
  let instances := X.map e.transform
  let shapAll := e.shapValues instances ncs seed
  if e.mode = "classification" then
    match y with
    | .single k =>
        ([.attributorCall],
          .ok (e.buildRecords X shapAll
            (some (List.replicate instances.length k)) instances.length))
    | .seq l =>
        if instances.length = l.length then
          ([.attributorCall],
            .ok (e.buildRecords X shapAll (some l) instances.length))
        else ([.attributorCall], .error .validationError)
    | .noLabel =>
        let preds := instances.map e.predictFn
        ([.attributorCall, .predictCall],
          .ok (e.buildRecords X shapAll (some (preds.map argmaxIdx))
            instances.length))
  else
    ([.attributorCall], .ok (e.buildRecords X shapAll none instances.length))

/-- A concrete linear regression predictor over three features, used as a
test fixture. -/
def pfReg (r : List ℚ) : List ℚ :=
  [r.getD 0 0 + 5 * r.getD 1 0 + r.getD 2 0]

/-- A concrete three-class probability predictor over two features, used as
a test fixture. -/
def pfCls (r : List ℚ) : List ℚ :=
  [r.getD 0 0, r.getD 1 0, 1 - r.getD 0 0 - r.getD 1 0]

/-- A concrete linear predictor over two features, used as a test fixture. -/
def pfLin (r : List ℚ) : List ℚ :=
  [r.getD 0 0 + 2 * r.getD 1 0]

/-- A concrete regression-mode explainer state with one ignored feature. -/
def eReg : ShapTabular :=
  { mode := "regression"
    featureColumns := ["f0", "f1", "f2"]
    targetColumn := some "t"
    ignoredFeatures := ["f2"]
    data := [[0, 0, 0]]
    predictFn := pfReg
    transform := id
    link := "identity" }

/-- A concrete classification-mode explainer state with no ignored
features. -/
def eCls : ShapTabular :=
  { mode := "classification"
    featureColumns := ["f0", "f1"]
    targetColumn := none
    ignoredFeatures := []
    data := [[0, 0]]
    predictFn := pfCls
    transform := id
    link := "logit" }

/-- Concrete training data with a target column, used as a construction
fixture. -/
def tdW : Tabular :=
  { featureColumns := ["f0", "f1"]
    targetColumn := some "t"
    rows := [[0, 0]] }

/- ------------------------------------------------------------------ -/
/- Helper lemmas                                                       -/
/- ------------------------------------------------------------------ -/

theorem getD_mem_of_lt {l : List Nat} {i : Nat} (h : i < l.length) :
    l.getD i 0 ∈ l := by
  rw [List.getD_eq_getElem l 0 h]
  exact List.getElem_mem h

theorem sampleIdxAux_subset :
    ∀ (n : Nat) (pool : List Nat) (st : Nat),
      ∀ x ∈ sampleIdxAux n pool st, x ∈ pool
  | 0, _, _ => by simp [sampleIdxAux]
  | _ + 1, [], _ => by simp [sampleIdxAux]
  | n + 1, p :: ps, st => by
      intro x hx
      simp only [sampleIdxAux, List.mem_cons] at hx
      rcases hx with h | h
      · exact h ▸ getD_mem_of_lt (Nat.mod_lt _ (by simp))
      · exact List.erase_subset _ _ (sampleIdxAux_subset n _ (lcgNext st) x h)

theorem sampleIdxAux_nodup :
    ∀ (n : Nat) (pool : List Nat) (st : Nat), pool.Nodup →
      (sampleIdxAux n pool st).Nodup
  | 0, _, _, _ => by simp [sampleIdxAux]
  | _ + 1, [], _, _ => by simp [sampleIdxAux]
  | n + 1, p :: ps, st, hnd => by
      simp only [sampleIdxAux, List.nodup_cons]
      refine ⟨fun hmem => ?_, sampleIdxAux_nodup n _ (lcgNext st) (hnd.erase _)⟩
      exact hnd.not_mem_erase (sampleIdxAux_subset n _ (lcgNext st) _ hmem)

theorem sampleIdxAux_length :
    ∀ (n : Nat) (pool : List Nat) (st : Nat), n ≤ pool.length →
      (sampleIdxAux n pool st).length = n
  | 0, _, _, _ => by simp [sampleIdxAux]
  | n + 1, [], _, h => by simp at h
  | n + 1, p :: ps, st, h => by
      simp only [sampleIdxAux, List.length_cons]
      have hmem : (p :: ps).getD (st % (p :: ps).length) 0 ∈ p :: ps :=
        getD_mem_of_lt (Nat.mod_lt _ (by simp))
      have hlen := List.length_erase_of_mem hmem
      simp only [List.length_cons] at hlen h
      rw [sampleIdxAux_length n _ (lcgNext st) (by omega)]

theorem attributeScores_sum (x : List ℚ) (bg : List (List ℚ))
    (predict : List ℚ → List ℚ) (target ncs seed : Nat)
    (hx : x.length ≠ 0) :
    (attributeScores x bg predict target ncs seed).sum
      = (predict x).getD target 0 - avgPredict bg predict target := by
  simp only [attributeScores, if_neg hx, List.sum_append, List.sum_cons,
    List.sum_nil]
  ring

theorem argmaxIdx_lt_length : ∀ (l : List ℚ), l ≠ [] → argmaxIdx l < l.length
  | [], h => absurd rfl h
  | [_], _ => by simp [argmaxIdx]
  | a :: b :: rest, _ => by
      simp only [argmaxIdx]
      split
      · have := argmaxIdx_lt_length (b :: rest) (by simp)
        simpa using this
      · simp

theorem argmaxIdx_le :
    ∀ (l : List ℚ) (j : Nat), j < l.length →
      l.getD j 0 ≤ l.getD (argmaxIdx l) 0
  | [], j, h => by simp at h
  | [a], j, h => by
      have : j = 0 := by simpa using h
      simp [this, argmaxIdx]
  | a :: b :: rest, j, h => by
      simp only [argmaxIdx]
      split
      · rename_i hlt
        cases j with
        | zero => simpa using le_of_lt hlt
        | succ j' =>
            rw [List.getD_cons_succ, List.getD_cons_succ]
            exact argmaxIdx_le (b :: rest) j' (by simpa using h)
      · rename_i hge
        push_neg at hge
        cases j with
        | zero => simp
        | succ j' =>
            rw [List.getD_cons_succ, List.getD_cons_zero]
            exact le_trans (argmaxIdx_le (b :: rest) j' (by simpa using h)) hge

theorem argmaxIdx_first :
    ∀ (l : List ℚ) (j : Nat), j < argmaxIdx l →
      l.getD j 0 < l.getD (argmaxIdx l) 0
  | [], j, h => by simp [argmaxIdx] at h
  | [a], j, h => by simp [argmaxIdx] at h
  | a :: b :: rest, j, h => by
      simp only [argmaxIdx] at h ⊢
      split
      · rename_i hlt
        cases j with
        | zero => simpa using hlt
        | succ j' =>
            rw [List.getD_cons_succ, List.getD_cons_succ]
            refine argmaxIdx_first (b :: rest) j' ?_
            rw [if_pos hlt] at h
            omega
      · rename_i hge
        rw [if_neg hge] at h
        omega

theorem getD_map_of_lt {α β : Type} (f : α → β) (l : List α) (i : Nat)
    (d : β) (d' : α) (h : i < l.length) :
    (l.map f).getD i d = f (l.getD i d') := by
  rw [List.getD_eq_getElem (l.map f) d (by simpa using h),
    List.getD_eq_getElem l d' h]
  simp

theorem getD_replicate_of_lt {α : Type} {n i : Nat} {k d : α} (h : i < n) :
    (List.replicate n k).getD i d = k := by
  rw [List.getD_eq_getElem _ d (by simpa using h)]
  exact List.getElem_replicate k _

theorem mkRecord_targetLabel (e : ShapTabular) (X : List (List ℚ))
    (shapAll : List (List (List ℚ))) (labels : Option (List Nat)) (i : Nat) :
    (e.mkRecord X shapAll labels i).targetLabel
      = labels.map (fun ls => ls.getD i 0) := rfl

theorem buildRecords_getD (e : ShapTabular) (X : List (List ℚ))
    (shapAll : List (List (List ℚ))) (labels : Option (List Nat))
    {n i : Nat} (d : FIRecord) (h : i < n) :
    (e.buildRecords X shapAll labels n).getD i d
      = e.mkRecord X shapAll labels i := by
  unfold ShapTabular.buildRecords
  rw [getD_map_of_lt _ _ _ _ 0 (by simpa using h),
    List.getD_eq_getElem _ 0 (by simpa using h)]
  simp

theorem mem_buildRecords {e : ShapTabular} {X : List (List ℚ)}
    {shapAll : List (List (List ℚ))} {labels : Option (List Nat)}
    {n : Nat} {r : FIRecord} (h : r ∈ e.buildRecords X shapAll labels n) :
    ∃ i, i < n ∧ r = e.mkRecord X shapAll labels i := by
  unfold ShapTabular.buildRecords at h
  rcases List.mem_map.mp h with ⟨i, hi, hr⟩
  exact ⟨i, List.mem_range.mp hi, hr.symm⟩

theorem explainT_records_mkRecord {e : ShapTabular} {X : List (List ℚ)}
    {y : YArg} {n s : Nat} {r : FIRecord}
    (hr : r ∈ (e.explainT X y n s).2.toOption.getD []) :
    ∃ shapAll labels i, r = e.mkRecord X shapAll labels i := by
  simp only [ShapTabular.explainT] at hr
  by_cases hmode : e.mode = "classification"
  · rw [if_pos hmode] at hr
    cases y with
    | noLabel =>
        simp only [Except.toOption, Option.getD] at hr
        rcases mem_buildRecords hr with ⟨i, _, rfl⟩
        exact ⟨_, _, i, rfl⟩
    | single k =>
        simp only [Except.toOption, Option.getD] at hr
        rcases mem_buildRecords hr with ⟨i, _, rfl⟩
        exact ⟨_, _, i, rfl⟩
    | seq l =>
        dsimp only at hr
        by_cases hl : (X.map e.transform).length = l.length
        · rw [if_pos hl] at hr
          simp only [Except.toOption, Option.getD] at hr
          rcases mem_buildRecords hr with ⟨i, _, rfl⟩
          exact ⟨_, _, i, rfl⟩
        · rw [if_neg hl] at hr
          simp [Except.toOption] at hr
  · rw [if_neg hmode] at hr
    simp only [Except.toOption, Option.getD] at hr
    rcases mem_buildRecords hr with ⟨i, _, rfl⟩
    exact ⟨_, _, i, rfl⟩

theorem validIndices_not_ignored (e : ShapTabular) :
    ∀ j ∈ e.validIndices, e.featureColumns.getD j "" ∉ e.ignoredFeatures := by
  intro j hj
  unfold ShapTabular.validIndices at hj
  split at hj
  · rename_i hemp
    rw [hemp]
    simp
  · exact of_decide_eq_true (List.mem_filter.mp hj).2

theorem mkRecord_names (e : ShapTabular) (X : List (List ℚ))
    (shapAll : List (List (List ℚ))) (labels : Option (List Nat)) (i : Nat) :
    ∀ tr ∈ (e.mkRecord X shapAll labels i).triples,
      tr.1 ∉ e.ignoredFeatures := by
  intro tr htr
  simp only [ShapTabular.mkRecord, addRecord] at htr
  have htr' := (List.perm_insertionSort absDesc _).mem_iff.mp htr
  unfold zip3 at htr'
  obtain ⟨a, b, c⟩ := tr
  have h1 := (List.of_mem_zip htr').1
  rcases List.mem_map.mp h1 with ⟨j, hj, hje⟩
  rw [← hje]
  exact validIndices_not_ignored e j hj

/- ------------------------------------------------------------------ -/
/- Claim theorems                                                      -/
/- ------------------------------------------------------------------ -/

/-- C1: for every explained instance and resolved target, the sum of the
returned per-feature attribution scores equals the instance's prediction for
that target minus the mean prediction of the background set for that target
(exactly, in the rational model — hence within every tolerance, independent
of the number of coalition samples). -/
theorem efficiency_sum_of_scores (x : List ℚ) (bg : List (List ℚ))
    (predict : List ℚ → List ℚ) (target ncs seed : Nat)
    (hx : 0 < x.length) (hbg : 0 < bg.length) :
    (attributeScores x bg predict target ncs seed).sum
      = (predict x).getD target 0
        - (bg.map (fun b => (predict b).getD target 0)).sum / (bg.length : ℚ) := by
  rw [attributeScores_sum x bg predict target ncs seed (by omega)]
  rfl

/-- Witness for C1: the linear model `x0 + 2·x1` at instance `(1,1)` over a
single zero background row. -/
theorem efficiency_sum_of_scores_witness :
    (attributeScores [1, 1] [[0, 0]] pfLin 0 2 0).sum
      = (pfLin [1, 1]).getD 0 0
        - (([[0, 0]] : List (List ℚ)).map (fun b => (pfLin b).getD 0 0)).sum
          / (([[0, 0]] : List (List ℚ)).length : ℚ) :=
  efficiency_sum_of_scores [1, 1] [[0, 0]] pfLin 0 2 0 (by decide) (by decide)

/-- C8: the attribution is a pure function of the instance, background,
prediction function, target, coalition budget and seed — equal inputs and
an equal seed give bit-identical score vectors across runs. -/
theorem attribution_deterministic (x x' : List ℚ) (bg bg' : List (List ℚ))
    (p p' : List ℚ → List ℚ) (t t' n n' s s' : Nat)
    (hx : x = x') (hbg : bg = bg') (hp : p = p') (ht : t = t')
    (hn : n = n') (hs : s = s') :
    attributeScores x bg p t n s = attributeScores x' bg' p' t' n' s' := by
  rw [hx, hbg, hp, ht, hn, hs]

/-- Witness for C8 at a concrete input. -/
theorem attribution_deterministic_witness :
    attributeScores [1, 1] [[0, 0]] pfLin 0 2 7
      = attributeScores [1, 1] [[0, 0]] pfLin 0 2 7 :=
  attribution_deterministic [1, 1] [1, 1] [[0, 0]] [[0, 0]] pfLin pfLin
    0 0 2 2 7 7 rfl rfl rfl rfl rfl rfl

/-- C9: building the background set fails with `ConfigError` on a
non-positive subsample size; a size smaller than the dataset selects exactly
that many distinct row indices (sampling without replacement); otherwise the
full dataset is used unchanged. -/
theorem background_build_spec (rows : List (List ℚ)) (n : Int) (seed : Nat) :
    (n ≤ 0 → sampleBackground rows n seed = .error .configError)
    ∧ (0 < n → n < (rows.length : Int) →
        sampleBackground rows n seed
          = .ok ((sampleIndices rows.length n.toNat seed).map
              (fun i => rows.getD i []))
        ∧ (sampleIndices rows.length n.toNat seed).Nodup
        ∧ (sampleIndices rows.length n.toNat seed).length = n.toNat
        ∧ ∀ i ∈ sampleIndices rows.length n.toNat seed, i < rows.length)
    ∧ (0 < n → (rows.length : Int) ≤ n →
        sampleBackground rows n seed = .ok rows) := by
  refine ⟨fun h => ?_, fun h1 h2 => ⟨?_, ?_, ?_, ?_⟩, fun h1 h2 => ?_⟩
  · simp [sampleBackground, if_pos h]
  · rw [sampleBackground, if_neg (by omega), if_pos h2]
  · exact sampleIdxAux_nodup _ _ _ (List.nodup_range _)
  · exact sampleIdxAux_length _ _ _ (by simp; omega)
  · intro i hi
    have := sampleIdxAux_subset _ _ _ i hi
    simpa using this
  · rw [sampleBackground, if_neg (by omega), if_neg (by omega)]

/-- Witness for C9: subsampling 3 of 5 rows, and the degenerate cases. -/
theorem background_build_spec_witness :
    sampleBackground [[1], [2], [3], [4], [5]] 3 7
        = .ok ((sampleIndices 5 3 7).map
            (fun i => ([[1], [2], [3], [4], [5]] : List (List ℚ)).getD i []))
      ∧ (sampleIndices 5 3 7).Nodup
      ∧ (sampleIndices 5 3 7).length = 3
      ∧ ∀ i ∈ sampleIndices 5 3 7, i < 5 := by
  have h := (background_build_spec [[1], [2], [3], [4], [5]] 3 7).2.1
    (by decide) (by decide)
  simpa using h

/-- C10: with `ignored_features` left as `None` and a target column present,
the membership check runs on the raw `None` argument and construction raises
(`TypeError`); hence construction with no ignored features succeeds only
when there is no target column. -/
theorem none_ignored_target_check (td : Tabular)
    (pf tr : List ℚ → List ℚ) (mode : String) (ns : Option Int)
    (seed : Nat) :
    (∀ t, td.targetColumn = some t →
        ShapTabular.init td pf tr mode none ns seed = .error .typeError)
    ∧ (∀ e, ShapTabular.init td pf tr mode none ns seed = .ok e →
        td.targetColumn = none) := by
  constructor
  · intro t ht
    simp [ShapTabular.init, ht]
  · intro e he
    cases h : td.targetColumn with
    | none => rfl
    | some t => simp [ShapTabular.init, h] at he

/-- Witness for C10: a dataset with target column `t`. -/
theorem none_ignored_target_check_witness :
    ShapTabular.init tdW pfCls id "classification" none none 0
      = .error .typeError :=
  (none_ignored_target_check tdW pfCls id "classification" none 0).1 "t" rfl

/-- C2: ignoring the target column fails at construction time with the
config error, and an `explain` call never produces that error. -/
theorem target_in_ignored_fails_at_construction (td : Tabular)
    (pf tr : List ℚ → List ℚ) (mode : String) (ign : List String)
    (ns : Option Int) (seed : Nat) (t : String)
    (htc : td.targetColumn = some t) (hmem : t ∈ ign) :
    ShapTabular.init td pf tr mode (some ign) ns seed = .error .configError
    ∧ ∀ (e : ShapTabular) (X : List (List ℚ)) (y : YArg) (n s : Nat),
        (e.explainT X y n s).2 ≠ .error .configError := by
  constructor
  · simp [ShapTabular.init, htc, hmem]
  · intro e X y n s
    simp only [ShapTabular.explainT]
    split
    · cases y with
      | noLabel => simp
      | single k => simp
      | seq l =>
          dsimp only
          split <;> simp
    · simp

/-- Witness for C2 at a concrete dataset and a concrete explain call. -/
theorem target_in_ignored_fails_at_construction_witness :
    ShapTabular.init tdW pfCls id "classification" (some ["t"]) none 0
        = .error .configError
    ∧ (eCls.explainT [[1, 0]] .noLabel 2 0).2 ≠ .error .configError :=
  ⟨(target_in_ignored_fails_at_construction tdW pfCls id "classification"
      ["t"] none 0 "t" rfl (by decide)).1,
    (target_in_ignored_fails_at_construction tdW pfCls id "classification"
      ["t"] none 0 "t" rfl (by decide)).2 eCls [[1, 0]] .noLabel 2 0⟩

/-- C3: in classification mode a single label value is broadcast as the
target label of every instance, and a label sequence whose length differs
from the instance count fails with the validation error. -/
theorem classification_label_arguments (e : ShapTabular)
    (hmode : e.mode = "classification") :
    (∀ (X : List (List ℚ)) (k n s : Nat),
        ∀ r ∈ (e.explainT X (.single k) n s).2.toOption.getD [],
          r.targetLabel = some k)
    ∧ (∀ (X : List (List ℚ)) (l : List Nat) (n s : Nat),
        l.length ≠ X.length →
        (e.explainT X (.seq l) n s).2 = .error .validationError) := by
  constructor
  · intro X k n s r hr
    simp only [ShapTabular.explainT, if_pos hmode, Except.toOption,
      Option.getD] at hr
    rcases mem_buildRecords hr with ⟨i, hi, rfl⟩
    rw [mkRecord_targetLabel]
    simp only [Option.map_some']
    rw [getD_replicate_of_lt hi]
  · intro X l n s hlen
    simp only [ShapTabular.explainT, if_pos hmode]
    rw [if_neg (by simp only [List.length_map]; omega)]

/-- Witness for C3: broadcasting label 1 over two instances, and a
two-label sequence against one instance. -/
theorem classification_label_arguments_witness :
    (∀ r ∈ (eCls.explainT [[1, 0], [0, 1]] (.single 1) 2 0).2.toOption.getD [],
        r.targetLabel = some 1)
    ∧ (eCls.explainT [[1, 0]] (.seq [0, 1]) 2 0).2 = .error .validationError :=
  ⟨fun r hr => (classification_label_arguments eCls rfl).1
      [[1, 0], [0, 1]] 1 2 0 r hr,
    (classification_label_arguments eCls rfl).2 [[1, 0]] [0, 1] 2 0
      (by decide)⟩

/-- C4 counterexample: on a label-length mismatch the call does fail with
the validation error, but the attributor has already been invoked before the
validation check — the claim that no attributor invocation precedes the
validation is false at this input. -/
theorem attributor_precedes_validation_cex :
    (eCls.explainT [[1, 0]] (.seq [0, 1]) 2 0).2 = .error .validationError
    ∧ Event.attributorCall ∈ (eCls.explainT [[1, 0]] (.seq [0, 1]) 2 0).1 := by
  constructor
  · rfl
  · simp [ShapTabular.explainT, eCls]

/-- C4 (amended): on a label-length mismatch the validation error is
surfaced and no records are produced, but the trace shows exactly one
attributor invocation made before the validation check. -/
theorem validation_surfaced_no_records (e : ShapTabular)
    (X : List (List ℚ)) (l : List Nat) (n s : Nat)
    (hmode : e.mode = "classification") (hlen : l.length ≠ X.length) :
    e.explainT X (.seq l) n s = ([.attributorCall], .error .validationError) := by
  simp only [ShapTabular.explainT, if_pos hmode]
  rw [if_neg (by simp only [List.length_map]; omega)]

/-- Witness for the amended C4 at a concrete mismatched call. -/
theorem validation_surfaced_no_records_witness :
    eCls.explainT [[1, 0]] (.seq [0, 1]) 2 0
      = ([.attributorCall], .error .validationError) :=
  validation_surfaced_no_records eCls [[1, 0]] [0, 1] 2 0 rfl (by decide)

/-- C5: in classification mode with labels absent, each record's target
label is the index of the maximal predicted probability of its instance,
and that index is maximal and first among ties (lower indices hold strictly
smaller values). -/
theorem argmax_label_resolution (e : ShapTabular) (X : List (List ℚ))
    (n s i : Nat) (hmode : e.mode = "classification") (hi : i < X.length) :
    (((e.explainT X .noLabel n s).2.toOption.getD []).getD i
          ⟨none, []⟩).targetLabel
        = some (argmaxIdx (e.predictFn (e.transform (X.getD i []))))
    ∧ (∀ j < (e.predictFn (e.transform (X.getD i []))).length,
        (e.predictFn (e.transform (X.getD i []))).getD j 0
          ≤ (e.predictFn (e.transform (X.getD i []))).getD
              (argmaxIdx (e.predictFn (e.transform (X.getD i [])))) 0)
    ∧ ∀ j < argmaxIdx (e.predictFn (e.transform (X.getD i []))),
        (e.predictFn (e.transform (X.getD i []))).getD j 0
          < (e.predictFn (e.transform (X.getD i []))).getD
              (argmaxIdx (e.predictFn (e.transform (X.getD i [])))) 0 := by
  refine ⟨?_, fun j hj => argmaxIdx_le _ j hj, fun j hj => argmaxIdx_first _ j hj⟩
  simp only [ShapTabular.explainT, if_pos hmode, Except.toOption, Option.getD]
  rw [buildRecords_getD _ _ _ _ _ (by simpa using hi), mkRecord_targetLabel]
  simp only [Option.map_some']
  congr 1
  rw [getD_map_of_lt argmaxIdx _ i 0 [] (by simpa using hi),
    getD_map_of_lt e.predictFn _ i [] [] (by simpa using hi),
    getD_map_of_lt e.transform _ i [] [] hi]

/-- Witness for C5: the three-class predictor at the instance `(1,0)`. -/
theorem argmax_label_resolution_witness :
    (((eCls.explainT [[1, 0]] .noLabel 2 0).2.toOption.getD []).getD 0
          ⟨none, []⟩).targetLabel
        = some (argmaxIdx (eCls.predictFn (eCls.transform ([[1, 0]].getD 0 []))))
    ∧ (∀ j < (eCls.predictFn (eCls.transform ([[1, 0]].getD 0 []))).length,
        (eCls.predictFn (eCls.transform ([[1, 0]].getD 0 []))).getD j 0
          ≤ (eCls.predictFn (eCls.transform ([[1, 0]].getD 0 []))).getD
              (argmaxIdx (eCls.predictFn (eCls.transform ([[1, 0]].getD 0 [])))) 0)
    ∧ ∀ j < argmaxIdx (eCls.predictFn (eCls.transform ([[1, 0]].getD 0 []))),
        (eCls.predictFn (eCls.transform ([[1, 0]].getD 0 []))).getD j 0
          < (eCls.predictFn (eCls.transform ([[1, 0]].getD 0 []))).getD
              (argmaxIdx (eCls.predictFn (eCls.transform ([[1, 0]].getD 0 [])))) 0 :=
  argmax_label_resolution eCls [[1, 0]] 2 0 0 rfl (by decide)

/-- C6: outside classification mode the `labels` argument has no effect on
the result of `explain`, and every returned record has an absent target
label. -/
theorem regression_ignores_labels (e : ShapTabular)
    (hmode : e.mode ≠ "classification") :
    (∀ (X : List (List ℚ)) (y y' : YArg) (n s : Nat),
        e.explainT X y n s = e.explainT X y' n s)
    ∧ (∀ (X : List (List ℚ)) (y : YArg) (n s : Nat),
        ∀ r ∈ (e.explainT X y n s).2.toOption.getD [],
          r.targetLabel = none) := by
  constructor
  · intro X y y' n s
    simp only [ShapTabular.explainT, if_neg hmode]
  · intro X y n s r hr
    simp only [ShapTabular.explainT, if_neg hmode, Except.toOption,
      Option.getD] at hr
    rcases mem_buildRecords hr with ⟨i, _, rfl⟩
    rw [mkRecord_targetLabel]
    rfl

/-- Witness for C6: the regression explainer with a spurious label
argument. -/
theorem regression_ignores_labels_witness :
    eReg.explainT [[1, 1, 1]] (.single 3) 6 0
        = eReg.explainT [[1, 1, 1]] .noLabel 6 0
    ∧ ∀ r ∈ (eReg.explainT [[1, 1, 1]] (.single 3) 6 0).2.toOption.getD [],
        r.targetLabel = none :=
  ⟨(regression_ignores_labels eReg (by decide)).1 [[1, 1, 1]] (.single 3)
      .noLabel 6 0,
    fun r hr => (regression_ignores_labels eReg (by decide)).2 [[1, 1, 1]]
      (.single 3) 6 0 r hr⟩

set_option maxRecDepth 10000 in
/-- C7 counterexample: at a concrete regression call with `f2` ignored, the
record's triples are `[f1, f0]` — sorted by descending absolute score — and
not the original-feature-order restriction `[f0, f1]`, so the claim's
"in original feature order" fails as stated. -/
theorem record_not_original_order_cex :
    (((eReg.explainT [[1, 1, 1]] .noLabel 6 0).2.toOption.getD []).getD 0
        ⟨none, []⟩).triples.map (fun tr => tr.1)
      ≠ eReg.validIndices.map (fun j => eReg.featureColumns.getD j "") := by
  have h : attributeScores [1, 1, 1] [[0, 0, 0]] pfReg 0 6 0 = [1, 5, 1] := by
    norm_num [attributeScores, avgPredict, coalitionValue, synthRow,
      kernelWeight, sizeOrder, pickCoalitions, zRow, normalMatrix,
      normalVector, dropCol, detFuel, det, cramerSolve, pfReg, Nat.choose,
      List.sublistsLen, List.sublistsLenAux, List.insertionSort,
      List.orderedInsert, List.range_succ, List.range']
  have hfull : eReg.explainT [[1, 1, 1]] .noLabel 6 0
      = ([.attributorCall],
          .ok [⟨none, [("f1", (1 : ℚ), (5 : ℚ)), ("f0", 1, 1)]⟩]) := by
    norm_num [ShapTabular.explainT, ShapTabular.shapValues,
      ShapTabular.numOutputs, ShapTabular.buildRecords, ShapTabular.mkRecord,
      ShapTabular.scoreRow, ShapTabular.validIndices, eReg, pfReg, zip3,
      addRecord, List.insertionSort, List.orderedInsert, absDesc,
      List.range_succ, h]
    decide
  rw [hfull]
  decide

/-- C7 (amended): a feature listed in `ignoredFeatures` never appears in any
output record; each record's triples are exactly those of the feature
indices not in `ignoredFeatures` — a permutation of the original-order
restriction of names, values and scores — ordered by descending absolute
score rather than by original feature position. -/
theorem ignored_never_appears (e : ShapTabular) (X : List (List ℚ))
    (y : YArg) (n s : Nat) :
    (∀ r ∈ (e.explainT X y n s).2.toOption.getD [],
        ∀ tr ∈ r.triples, tr.1 ∉ e.ignoredFeatures)
    ∧ ∀ (shapAll : List (List (List ℚ))) (labels : Option (List Nat))
        (i : Nat),
        List.Sorted absDesc (e.mkRecord X shapAll labels i).triples
        ∧ (e.mkRecord X shapAll labels i).triples.Perm
            (zip3 (e.validIndices.map fun j => e.featureColumns.getD j "")
              (e.validIndices.map fun j => (X.getD i []).getD j 0)
              (e.validIndices.map fun j =>
                (e.scoreRow shapAll labels i).getD j 0)) := by
  constructor
  · intro r hr tr htr
    rcases explainT_records_mkRecord hr with ⟨sa, lb, i, rfl⟩
    exact mkRecord_names e X sa lb i tr htr
  · intro shapAll labels i
    constructor
    · simp only [ShapTabular.mkRecord, addRecord]
      exact List.sorted_insertionSort absDesc _
    · simp only [ShapTabular.mkRecord, addRecord]
      exact List.perm_insertionSort absDesc _

set_option maxRecDepth 10000 in
/-- Witness for the amended C7 at the concrete regression explainer: the
record produced by the concrete call contains no ignored feature, and a
concrete record assembly is sorted and a permutation of the original-order
restriction. -/
theorem ignored_never_appears_witness :
    ("f1", (1 : ℚ), (5 : ℚ)).1 ∉ eReg.ignoredFeatures
    ∧ List.Sorted absDesc (eReg.mkRecord [[1, 1, 1]] [[[1, 5, 1]]] none 0).triples
    ∧ (eReg.mkRecord [[1, 1, 1]] [[[1, 5, 1]]] none 0).triples.Perm
        (zip3 (eReg.validIndices.map fun j => eReg.featureColumns.getD j "")
          (eReg.validIndices.map fun j =>
            (([[1, 1, 1]] : List (List ℚ)).getD 0 []).getD j 0)
          (eReg.validIndices.map fun j =>
            (eReg.scoreRow [[[1, 5, 1]]] none 0).getD j 0)) := by
  refine ⟨?_,
    ((ignored_never_appears eReg [[1, 1, 1]] .noLabel 6 0).2 [[[1, 5, 1]]] none 0).1,
    ((ignored_never_appears eReg [[1, 1, 1]] .noLabel 6 0).2 [[[1, 5, 1]]] none 0).2⟩
  have h : attributeScores [1, 1, 1] [[0, 0, 0]] pfReg 0 6 0 = [1, 5, 1] := by
    norm_num [attributeScores, avgPredict, coalitionValue, synthRow,
      kernelWeight, sizeOrder, pickCoalitions, zRow, normalMatrix,
      normalVector, dropCol, detFuel, det, cramerSolve, pfReg, Nat.choose,
      List.sublistsLen, List.sublistsLenAux, List.insertionSort,
      List.orderedInsert, List.range_succ, List.range']
  have hfull : eReg.explainT [[1, 1, 1]] .noLabel 6 0
      = ([.attributorCall],
          .ok [⟨none, [("f1", (1 : ℚ), (5 : ℚ)), ("f0", 1, 1)]⟩]) := by
    norm_num [ShapTabular.explainT, ShapTabular.shapValues,
      ShapTabular.numOutputs, ShapTabular.buildRecords, ShapTabular.mkRecord,
      ShapTabular.scoreRow, ShapTabular.validIndices, eReg, pfReg, zip3,
      addRecord, List.insertionSort, List.orderedInsert, absDesc,
      List.range_succ, h]
    decide
  refine (ignored_never_appears eReg [[1, 1, 1]] .noLabel 6 0).1
    ⟨none, [("f1", 1, 5), ("f0", 1, 1)]⟩ ?_ ("f1", 1, 5)
    (List.mem_cons_self _ _)
  rw [hfull]
  simp [Except.toOption]

end OmniShap
